import Mathlib

/-!
Shallow embedding of `kernel/src/process/thread.rs` (rCore user-thread core):
the global thread table, thread/process records, the creation operations
(`new_user`, `fork`, `new_clone`), the user-image loader (`new_user_vm`),
the run-loop of `spawn`, and the page-table-switch wrapper — together with
theorems settling the specification's claims about them.
-/

set_option maxHeartbeats 1000000

namespace RCore

/-!  ## Association-list model of `BTreeMap<usize, V>`

`THREADS` is a `BTreeMap<usize, Arc<Thread>>`.  We model it as an association
list with key-replacing insertion; `lookupTbl` is `get`, `insertTbl` is
`insert`.  A `BTreeMap` never holds a key twice, which for this model is the
`(tblKeys tbl).Nodup` invariant. -/

def lookupTbl {α : Type} (tbl : List (Nat × α)) (k : Nat) : Option α :=
  (tbl.find? (fun p => p.1 == k)).map Prod.snd

def insertTbl {α : Type} (k : Nat) (v : α) (tbl : List (Nat × α)) : List (Nat × α) :=
  (k, v) :: tbl.filter (fun p => p.1 != k)

def tblKeys {α : Type} (tbl : List (Nat × α)) : List Nat := tbl.map Prod.fst

def maxKey {α : Type} (tbl : List (Nat × α)) : Nat :=
  (tbl.map Prod.fst).foldr Nat.max 0

theorem lookupTbl_nil {α : Type} (k : Nat) : lookupTbl ([] : List (Nat × α)) k = none := rfl

theorem lookupTbl_cons {α : Type} (p : Nat × α) (tbl : List (Nat × α)) (k : Nat) :
    lookupTbl (p :: tbl) k = if p.1 = k then some p.2 else lookupTbl tbl k := by
  by_cases h : p.1 = k <;> simp [lookupTbl, List.find?_cons, h]

theorem lookupTbl_insert_self {α : Type} (k : Nat) (v : α) (tbl : List (Nat × α)) :
    lookupTbl (insertTbl k v tbl) k = some v := by
  simp [insertTbl, lookupTbl_cons]

theorem lookupTbl_filter_ne {α : Type} (k j : Nat) (tbl : List (Nat × α)) (h : j ≠ k) :
    lookupTbl (tbl.filter (fun p => p.1 != k)) j = lookupTbl tbl j := by
  induction tbl with
  | nil => rfl
  | cons p tl ih =>
    by_cases hpk : p.1 = k
    · have hpj : p.1 ≠ j := by rw [hpk]; exact Ne.symm h
      simp [List.filter_cons, hpk, lookupTbl_cons, ih, hpj, Ne.symm h]
    · simp [List.filter_cons, hpk, lookupTbl_cons, ih]

theorem lookupTbl_insert_ne {α : Type} (k j : Nat) (v : α) (tbl : List (Nat × α)) (h : j ≠ k) :
    lookupTbl (insertTbl k v tbl) j = lookupTbl tbl j := by
  rw [insertTbl, lookupTbl_cons, if_neg (fun hh => h hh.symm), lookupTbl_filter_ne k j tbl h]

theorem mem_le_maxKey {α : Type} (tbl : List (Nat × α)) (p : Nat × α) (hp : p ∈ tbl) :
    p.1 ≤ maxKey tbl := by
  induction tbl with
  | nil => cases hp
  | cons q tl ih =>
    rw [List.mem_cons] at hp
    rcases hp with hq | htl
    · subst hq
      simp only [maxKey, List.map_cons, List.foldr_cons]
      exact Nat.le_max_left _ _
    · have := ih htl
      simp only [maxKey, List.map_cons, List.foldr_cons]
      exact le_trans this (Nat.le_max_right _ _)

theorem lookupTbl_eq_none_of_gt_maxKey {α : Type} (tbl : List (Nat × α)) (k : Nat)
    (h : maxKey tbl < k) : lookupTbl tbl k = none := by
  have hfind : tbl.find? (fun p => p.1 == k) = none := by
    rw [List.find?_eq_none]
    intro p hp hbeq
    have hk : p.1 = k := by simpa using hbeq
    have := mem_le_maxKey tbl p hp
    omega
  rw [lookupTbl, hfind]
  rfl

theorem tblKeys_nodup_insert {α : Type} (k : Nat) (v : α) (tbl : List (Nat × α))
    (h : (tblKeys tbl).Nodup) : (tblKeys (insertTbl k v tbl)).Nodup := by
  rw [insertTbl, tblKeys, List.map_cons]
  refine List.Nodup.cons ?_ ?_
  · intro hmem
    rcases List.mem_map.mp hmem with ⟨p, hp, hpk⟩
    have := List.of_mem_filter hp
    simp only [bne_iff_ne, ne_eq, decide_eq_true_eq] at this
    exact this hpk
  · have hsub : (tbl.filter (fun p => p.1 != k)).map Prod.fst |>.Sublist (tbl.map Prod.fst) :=
      List.Sublist.map Prod.fst (List.filter_sublist tbl)
    exact List.Nodup.sublist hsub h

theorem mem_insertTbl {α : Type} (k : Nat) (v : α) (tbl : List (Nat × α)) (p : Nat × α)
    (hp : p ∈ insertTbl k v tbl) : p = (k, v) ∨ p ∈ tbl := by
  rcases hp with _ | hmem
  · left; rfl
  · right; exact List.mem_of_mem_filter (by assumption)

/-!  ## Tid allocation

`add_to_table` runs `(Pid::INIT..).find(|i| thread_table.get(i).is_none())`:
the smallest integer `≥ INIT` that is not a key.  The unbounded iterator search
is realized with fuel `maxKey tbl + 2`, which always reaches a free key
(everything above `maxKey` is free); `assignTid_spec` proves the result is
exactly the least free integer `≥ init`. -/

def findFree {α : Type} (tbl : List (Nat × α)) : Nat → Nat → Nat
  | 0, start => start
  | fuel+1, start => if (lookupTbl tbl start).isNone then start else findFree tbl fuel (start+1)

def assignTid {α : Type} (tbl : List (Nat × α)) (init : Nat) : Nat :=
  findFree tbl (maxKey tbl + 2) init

theorem findFree_spec {α : Type} (tbl : List (Nat × α)) :
    ∀ (fuel start : Nat),
      (∃ j, start ≤ j ∧ j < start + fuel ∧ lookupTbl tbl j = none) →
      (lookupTbl tbl (findFree tbl fuel start) = none ∧
       start ≤ findFree tbl fuel start ∧
       ∀ j, start ≤ j → j < findFree tbl fuel start → (lookupTbl tbl j).isSome) := by
  intro fuel
  induction fuel with
  | zero =>
    intro start ⟨j, h1, h2, _⟩
    omega
  | succ n ih =>
    intro start ⟨j, h1, h2, h3⟩
    by_cases hs : (lookupTbl tbl start).isNone
    · refine ⟨?_, ?_, ?_⟩
      · simpa [findFree, hs] using Option.isNone_iff_eq_none.mp hs
      · simp [findFree, hs]
      · intro j2 hj2 hj2'
        simp [findFree, hs] at hj2'
        omega
    · have hstep : findFree tbl (n+1) start = findFree tbl n (start+1) := by
        simp [findFree, hs]
      have hjne : j ≠ start := by
        intro he
        rw [he] at h3
        simp [h3] at hs
      have hex : ∃ j, start + 1 ≤ j ∧ j < start + 1 + n ∧ lookupTbl tbl j = none :=
        ⟨j, by omega, by omega, h3⟩
      obtain ⟨c1, c2, c3⟩ := ih (start+1) hex
      refine ⟨by rwa [hstep], by rw [hstep]; omega, ?_⟩
      intro j2 hj2 hj2'
      rw [hstep] at hj2'
      by_cases hje : j2 = start
      · rw [hje]
        cases hx : lookupTbl tbl start with
        | none => exact absurd (by simp [hx] : (lookupTbl tbl start).isNone = true) hs
        | some v => simp
      · exact c3 j2 (by omega) hj2'

theorem assignTid_spec {α : Type} (tbl : List (Nat × α)) (init : Nat) :
    lookupTbl tbl (assignTid tbl init) = none ∧
    init ≤ assignTid tbl init ∧
    ∀ j, init ≤ j → j < assignTid tbl init → (lookupTbl tbl j).isSome := by
  apply findFree_spec
  by_cases h : maxKey tbl + 1 ≤ init
  · exact ⟨init, le_refl _, by omega,
      lookupTbl_eq_none_of_gt_maxKey tbl init (by omega)⟩
  · exact ⟨maxKey tbl + 1, by omega, by omega,
      lookupTbl_eq_none_of_gt_maxKey tbl (maxKey tbl + 1) (by omega)⟩

/-!  ## Architectural user context

`trapframe::UserContext` for the x86-64 build target (the target the compiled
code selects: `rflags = 0x3202`, XApic, trap vector 0x100).  Registers are
unbounded naturals; no claim involves register arithmetic, only moves. -/

structure GeneralRegs where
  rax : Nat
  rbx : Nat
  rcx : Nat
  rdx : Nat
  rsi : Nat
  rdi : Nat
  rbp : Nat
  rsp : Nat
  r8 : Nat
  r9 : Nat
  r10 : Nat
  r11 : Nat
  r12 : Nat
  r13 : Nat
  r14 : Nat
  r15 : Nat
  rip : Nat
  rflags : Nat
  fsbase : Nat
  gsbase : Nat
deriving DecidableEq

def GeneralRegs.zero : GeneralRegs :=
  ⟨0, 0, 0, 0, 0, 0, 0, 0, 0, 0, 0, 0, 0, 0, 0, 0, 0, 0, 0, 0⟩

def GeneralRegs.set_ip (r : GeneralRegs) (v : Nat) : GeneralRegs := { r with rip := v }

def GeneralRegs.set_sp (r : GeneralRegs) (v : Nat) : GeneralRegs := { r with rsp := v }

def GeneralRegs.set_syscall_ret (r : GeneralRegs) (v : Nat) : GeneralRegs := { r with rax := v }

def GeneralRegs.set_tls (r : GeneralRegs) (v : Nat) : GeneralRegs := { r with fsbase := v }

structure UserContext where
  trap_num : Nat
  error_code : Nat
  general : GeneralRegs
deriving DecidableEq

def UserContext.default : UserContext :=
  { trap_num := 0, error_code := 0, general := GeneralRegs.zero }

/-!  ## Thread and process records

`Arc<Mutex<Process>>` handles are modelled as indices into a store
(`KernelState.procs`); two threads alias the same process record exactly when
they hold the same index.  `Arc<Mutex<MemorySet>>` handles are likewise bare
identifiers minted from a counter; the claims about them concern only handle
identity.  `Weak` references are `Option` indices.  Process fields the claims
never touch (futexes, semaphores, signal queue, dispositions, sigaltstack,
eventbus) are left out of the record. -/

structure ThreadInner where
  /-- user context; `none` when the thread is running in user -/
  context : Option UserContext
  clear_child_tid : Nat
deriving DecidableEq

structure FileLike where
  path : String
  read : Bool
  write : Bool
  append : Bool
  nonblock : Bool
deriving DecidableEq

structure Process where
  vm : Nat
  files : List (Nat × FileLike)
  cwd : String
  exec_path : String
  pid : Nat
  pgid : Nat
  parent : Nat × Option Nat
  children : List (Nat × Option Nat)
  threads : List Nat
  exit_code : Nat
  pending_sigset : Nat
deriving DecidableEq

structure Thread where
  inner : ThreadInner
  vm : Nat
  proc : Nat
  tid : Nat
  sig_mask : Nat
deriving DecidableEq

/-- The global mutable state the claims range over: the `THREADS` table, the
store of process records (giving `Arc<Mutex<Process>>` identity), the
`PROCESSES` table (pid to process handle), and the allocator for fresh
`MemorySet` handles. -/
structure KernelState where
  threads : List (Nat × Thread)
  procs : List Process
  processTable : List (Nat × Nat)
  vmCount : Nat
deriving DecidableEq

def defaultProcess : Process :=
  { vm := 0, files := [], cwd := "", exec_path := "", pid := 0, pgid := 0,
    parent := (0, none), children := [], threads := [], exit_code := 0,
    pending_sigset := 0 }

def initState : KernelState :=
  { threads := [], procs := [], processTable := [], vmCount := 0 }

def updateProc (procs : List Process) (i : Nat) (f : Process → Process) : List Process :=
  procs.set i (f (procs.getD i defaultProcess))

/-!  ## Constants

`Pid::INIT`, `crate::consts::{USER_STACK_OFFSET, USER_STACK_SIZE}`,
`crate::fs::FOLLOW_MAX_DEPTH` and the `abi::AT_*` keys live in modules of this
repository outside `src/`; `PAGE_SIZE` comes from the external `rcore-memory`
crate. -/

/-- Modelled from the spec: `Pid::INIT` is defined in the process module
(outside `src/`); the spec fixes identifiers "starting at a fixed `INIT` value
(e.g., 1)" and the code comments "do not start from 0". -/
def Pid.INIT : Nat := 1

/-- `rcore_memory::PAGE_SIZE`, the standard 4 KiB page. -/
def PAGE_SIZE : Nat := 4096

/-- Modelled from the spec: `crate::consts::USER_STACK_SIZE` (outside `src/`);
no claim depends on the numeric value. -/
def USER_STACK_SIZE : Nat := 0x800000

/-- Modelled from the spec: `crate::consts::USER_STACK_OFFSET` (outside
`src/`); no claim depends on the numeric value. -/
def USER_STACK_OFFSET : Nat := 0x800000000000 - USER_STACK_SIZE

/-- Modelled from the spec: `crate::fs::FOLLOW_MAX_DEPTH` (outside `src/`),
the maximal symlink-follow depth passed to `lookup_follow`; no claim depends
on the numeric value. -/
def FOLLOW_MAX_DEPTH : Nat := 1

/-- Modelled from the spec: the `abi` module (outside `src/`) uses the
standard System V auxiliary-vector keys. -/
def AT_PHDR : Nat := 3

def AT_PHENT : Nat := 4

def AT_PHNUM : Nat := 5

def AT_PAGESZ : Nat := 6

def AT_BASE : Nat := 7

def AT_ENTRY : Nat := 9

/-!  ## User image loader (`Thread::new_user_vm`)

The ELF library, the filesystem and the init-info writer are external
collaborators (the spec scopes them out); they enter the embedding as oracle
fields of `LoaderInput`.  The `&mut MemorySet` parameter is modelled by the
trace of operations applied to it, returned alongside the result. -/

inductive ElfType where
  | executable
  | sharedObject
  | relocatable
  | core
  | noType
  | other (n : Nat)
deriving DecidableEq

inductive ElfMachine where
  | x86_64
  | aarch64
  | riscv
  | mips
  | other (n : Nat)
deriving DecidableEq

structure ElfHeader where
  type_ : ElfType
  machine : ElfMachine
  entry_point : Nat
  ph_entry_size : Nat
  ph_count : Nat
  phdr_vaddr : Option Nat
  interpreter : Option String
deriving DecidableEq

structure LoaderInput where
  /-- whether `inode.read_at(0, …)` of the 0x3C0-byte executable prefix succeeds -/
  exec_read_ok : Bool
  /-- result of `ElfFile::new` on the executable prefix -/
  exec_parse : Except String ElfHeader
  /-- the load bias returned by `elf.make_memory_set(vm, inode)` -/
  bias : Nat
  /-- `ROOT_INODE.lookup_follow(path, depth)`: an inode handle, or failure -/
  lookup_follow : String → Nat → Option Nat
  /-- whether `read_at(0, …)` of the interpreter prefix succeeds -/
  interp_read_ok : Nat → Bool
  /-- result of `ElfFile::new` on the interpreter prefix -/
  interp_parse : Nat → Except String ElfHeader
  /-- the stack top left by `init_info.push_at(top)` -/
  push_at : Nat → Nat

inductive VMOp where
  | clear
  | mapExec (bias : Nat)
  | appendInterpreter (inode bias : Nat)
  | pushDelay (lo hi : Nat) (label : String)
  | pushByFrame (lo hi : Nat) (label : String)
  | pushInitInfo (args envs : List String) (auxv : List (Nat × Nat)) (top : Nat)
deriving DecidableEq

def Thread.new_user_vm (inp : LoaderInput) (args envs : List String) :
    Except String (Nat × Nat) × List VMOp :=
  -- Read ELF header (0x3c0-byte prefix)
  if inp.exec_read_ok = false then (.error "failed to read from INode", [])
  else
    -- Parse ELF
    match inp.exec_parse with
    | .error e => (.error e, [])
    | .ok elf =>
      -- Check ELF type
      if ¬(elf.type_ = .executable ∨ elf.type_ = .sharedObject) then
        (.error "ELF is not executable or shared object", [])
      -- Check ELF arch (x86-64 build target)
      else if elf.machine ≠ .x86_64 then
        (.error "invalid ELF arch", [])
      else
        -- auxiliary vector
        let auxv0 : List (Nat × Nat) :=
          let m : List (Nat × Nat) := []
          let m := match elf.phdr_vaddr with
            | some v => insertTbl AT_PHDR v m
            | none => m
          let m := insertTbl AT_PHENT elf.ph_entry_size m
          let m := insertTbl AT_PHNUM elf.ph_count m
          insertTbl AT_PAGESZ PAGE_SIZE m
        -- entry point; make page table
        let trace0 : List VMOp := [.clear, .mapExec inp.bias]
        -- Check interpreter (for dynamic link)
        let step2 : Except String (Nat × List (Nat × Nat) × List VMOp) :=
          match elf.interpreter with
          | none => .ok (elf.entry_point, auxv0, trace0)
          | some loader_path =>
            match inp.lookup_follow loader_path FOLLOW_MAX_DEPTH with
            | none => .error "interpreter not found"
            | some interp_inode =>
              if inp.interp_read_ok interp_inode = false then
                .error "failed to read from INode"
              else
                match inp.interp_parse interp_inode with
                | .error e => .error e
                | .ok elf_interp =>
                  let trace1 := trace0 ++ [.appendInterpreter interp_inode inp.bias]
                  let auxv1 :=
                    insertTbl AT_BASE inp.bias (insertTbl AT_ENTRY elf.entry_point auxv0)
                  -- use interpreter as actual entry point
                  .ok (elf_interp.entry_point + inp.bias, auxv1, trace1)
        match step2 with
        | .error e => (.error e, trace0)
        | .ok (entry_addr, auxv, trace1) =>
          -- User stack
          let ustack_top := USER_STACK_OFFSET + USER_STACK_SIZE
          let trace2 := trace1 ++
            [.pushDelay USER_STACK_OFFSET (ustack_top - PAGE_SIZE * 4) "user_stack_delay",
             .pushByFrame (ustack_top - PAGE_SIZE * 4) ustack_top "user_stack"]
          -- Make init info
          let final_top := inp.push_at ustack_top
          (.ok (entry_addr, final_top), trace2 ++ [.pushInitInfo args envs auxv final_top])

/-!  ## Table registration and creation operations -/

def Thread.add_to_table (self : Thread) (threads : List (Nat × Thread)) :
    Thread × List (Nat × Thread) :=
  -- assign tid, do not start from 0
  let tid := assignTid threads Pid.INIT
  let self_ref := { self with tid := tid }
  -- put to thread table
  (self_ref, insertTbl tid self_ref threads)

/-- Modelled from the spec: `add_to_process_table(proc, pid)` is defined in
the process module outside `src/`.  Per the spec it registers the process in
`PROCESSES` under `pid`, and the creation paths "register the process in
`PROCESSES` with `Pid = Tid`" — the deferred `pid` field becomes the given
pid. -/
def add_to_process_table (s : KernelState) (procIdx pid : Nat) : KernelState :=
  { s with
    procs := updateProc s.procs procIdx (fun p => { p with pid := pid }),
    processTable := insertTbl pid procIdx s.processTable }

def ttyFd (r w : Bool) : FileLike :=
  { path := "/dev/tty", read := r, write := w, append := false, nonblock := false }

/-- `Thread::new_user`.  The `none` result is the `.unwrap()` panic on a
loader failure. -/
def Thread.new_user (inp : LoaderInput) (exec_path : String) (args envs : List String)
    (s : KernelState) : Option (Nat × KernelState) :=
  match (Thread.new_user_vm inp args envs).1 with
  | .error _ => none
  | .ok (entry_addr, ustack_top) =>
    let vmIdx := s.vmCount
    -- initial fds
    let files : List (Nat × FileLike) :=
      insertTbl 2 (ttyFd false true)
        (insertTbl 1 (ttyFd false true) (insertTbl 0 (ttyFd true false) []))
    -- user context
    let context : UserContext :=
      { UserContext.default with
        general :=
          { (GeneralRegs.zero.set_ip entry_addr).set_sp ustack_top with rflags := 0x3202 } }
    let newProc : Process :=
      { vm := vmIdx, files := files, cwd := "/", exec_path := exec_path,
        pid := 0, pgid := 0, parent := (0, none), children := [], threads := [],
        exit_code := 0, pending_sigset := 0 }
    let procIdx := s.procs.length
    let thread : Thread :=
      { tid := 0, inner := { context := some context, clear_child_tid := 0 },
        vm := vmIdx, proc := procIdx, sig_mask := 0 }
    let s1 : KernelState := { s with procs := s.procs ++ [newProc], vmCount := s.vmCount + 1 }
    let res := thread.add_to_table s1.threads
    let s2 := { s1 with threads := res.2 }
    -- set pid to tid
    let s3 := add_to_process_table s2 procIdx res.1.tid
    some (res.1.tid, s3)

/-- `Thread::fork`: fork a new process from the current one. -/
def Thread.fork (self : Thread) (tf : UserContext) (s : KernelState) : Nat × KernelState :=
  -- clone virtual memory
  let vmIdx := s.vmCount
  -- context of new thread
  let context : UserContext := { tf with general := tf.general.set_syscall_ret 0 }
  let proc := s.procs.getD self.proc defaultProcess
  let new_proc : Process :=
    { vm := vmIdx, files := proc.files, cwd := proc.cwd, exec_path := proc.exec_path,
      pid := 0, pgid := proc.pgid, parent := (proc.pid, some self.proc),
      children := [], threads := [], exit_code := 0, pending_sigset := 0 }
  let newProcIdx := s.procs.length
  -- new thread
  let new_thread : Thread :=
    { tid := 0, inner := { context := some context, clear_child_tid := 0 },
      vm := vmIdx, proc := newProcIdx, sig_mask := self.sig_mask }
  let s1 : KernelState := { s with procs := s.procs ++ [new_proc], vmCount := s.vmCount + 1 }
  let res := new_thread.add_to_table s1.threads
  let s2 := { s1 with threads := res.2 }
  -- link thread and process
  let child_pid := res.1.tid
  let s3 := add_to_process_table s2 newProcIdx res.1.tid
  let s4 := { s3 with
    procs := updateProc s3.procs newProcIdx
      (fun p => { p with threads := p.threads ++ [res.1.tid] }) }
  -- link to parent
  let s5 := { s4 with
    procs := updateProc s4.procs self.proc
      (fun p => { p with children := p.children ++ [(child_pid, some newProcIdx)] }) }
  (res.1.tid, s5)

/-- `Thread::new_clone`: create a new thread in the same process. -/
def Thread.new_clone (self : Thread) (context : UserContext)
    (stack_top tls clear_child_tid : Nat) (s : KernelState) : Nat × KernelState :=
  let new_context : UserContext :=
    { context with
      general := ((context.general.set_syscall_ret 0).set_sp stack_top).set_tls tls }
  let thread : Thread :=
    { tid := 0, inner := { clear_child_tid := clear_child_tid, context := some new_context },
      vm := self.vm, proc := self.proc, sig_mask := self.sig_mask }
  let res := thread.add_to_table s.threads
  let s1 := { s with threads := res.2 }
  let s2 := { s1 with
    procs := updateProc s1.procs self.proc
      (fun p => { p with threads := p.threads ++ [res.1.tid] }) }
  (res.1.tid, s2)

/-- `Thread::begin_running`: `self.inner.lock().context.take().unwrap()`.
The `none` result is the panic of `unwrap` on an absent context. -/
def Thread.begin_running (inner : ThreadInner) : Option (UserContext × ThreadInner) :=
  match inner.context with
  | none => none
  | some cx => some (cx, { inner with context := none })

/-- `Thread::end_running`: `self.inner.lock().context = Some(cx)`. -/
def Thread.end_running (inner : ThreadInner) (cx : UserContext) : ThreadInner :=
  { inner with context := some cx }

/-!  ## The run-loop of `spawn`

One iteration: `begin_running`, `cx.run()`, dispatch on `cx.trap_num`,
`end_running`, break if the syscall handler demanded exit.  `cx.run()` and
`handle_syscall` are external; a `TrapResult` is what one `cx.run()` comes
back with, plus the exit flag `handle_syscall` would return for it.  The loop
is observed through its event trace. -/

structure TrapResult where
  trap_num : Nat
  /-- `get_page_fault_addr()` if this trap is a page fault -/
  page_fault_addr : Nat
  /-- what `handle_syscall` returns if this trap is the syscall vector -/
  syscall_exit : Bool
deriving DecidableEq

inductive TrapEvent where
  | beginRunning
  | run
  | handleSyscall (exit : Bool)
  | eoi (irq : Nat)
  | timerTick
  | serialInput
  | pageFault (addr : Nat)
  | ignored (trap_num : Nat)
  | endRunning
deriving DecidableEq

/-- The `match cx.trap_num` dispatch: events emitted and the `exit` flag. -/
def handleTrap (t : TrapResult) : List TrapEvent × Bool :=
  if t.trap_num = 0x100 then ([.handleSyscall t.syscall_exit], t.syscall_exit)
  else if 0x20 ≤ t.trap_num ∧ t.trap_num ≤ 0x3f then
    ([.eoi t.trap_num] ++ (if t.trap_num = 0x20 then [.timerTick] else [])
      ++ (if t.trap_num = 0x20 + 4 then [.serialInput] else []), false)
  else if t.trap_num = 0xe then ([.pageFault t.page_fault_addr], false)
  else ([.ignored t.trap_num], false)

/-- One iteration of the `loop` body. -/
def iterEvents (t : TrapResult) : List TrapEvent × Bool :=
  ([.beginRunning, .run] ++ (handleTrap t).1 ++ [.endRunning], (handleTrap t).2)

/-- The run-loop over a finite schedule of trap results (one per `cx.run()`
return).  It stops early at the first iteration whose exit flag is set. -/
def runLoop : List TrapResult → List TrapEvent
  | [] => []
  | t :: rest => if (iterEvents t).2 then (iterEvents t).1 else (iterEvents t).1 ++ runLoop rest

def isRunEv : TrapEvent → Bool
  | .run => true
  | _ => false

/-- Number of `cx.run()` entries (returns to user mode) in a trace. -/
def countRun (evs : List TrapEvent) : Nat :=
  evs.countP isRunEv

/-!  ## Page-table-switch wrapper -/

structure CpuState where
  /-- `PROCESSORS[cpu_id]`: per-CPU current-thread slot (thread handle) -/
  PROCESSORS : Nat → Option Nat
  /-- the page-table token installed on each CPU (`set_page_table`) -/
  page_table : Nat → Nat

structure PageTableSwitchWrapper where
  vmtoken : Nat
  thread : Nat

/-- `PROCESSORS[cpu_id] = v` -/
def setProcessor (st : CpuState) (cpu_id : Nat) (v : Option Nat) : CpuState :=
  { st with PROCESSORS := fun c => if c = cpu_id then v else st.PROCESSORS c }

/-- `set_page_table(token)` on the given CPU -/
def set_page_table (st : CpuState) (cpu_id tok : Nat) : CpuState :=
  { st with page_table := fun c => if c = cpu_id then tok else st.page_table c }

/-- The state in which the wrapped future is polled: current thread recorded,
vmtoken installed. -/
def pollEntryState (w : PageTableSwitchWrapper) (cpu_id : Nat) (st : CpuState) : CpuState :=
  set_page_table (setProcessor st cpu_id (some w.thread)) cpu_id w.vmtoken

/-- `<PageTableSwitchWrapper as Future>::poll` on CPU `cpu_id`.  The inner
boxed future is an oracle acting on the machine state; `Bool` models
`Poll::Ready(())` vs `Poll::Pending`.  The body is: set cpu-local thread,
install the vmtoken, poll the inner future once, clear the cpu-local
thread. -/
def PageTableSwitchWrapper.poll (w : PageTableSwitchWrapper) (cpu_id : Nat)
    (inner : CpuState → Bool × CpuState) (st : CpuState) : Bool × CpuState :=
  let r := inner (pollEntryState w cpu_id st)
  (r.1, setProcessor r.2 cpu_id none)

/-- `spawn`/`spawn_thread`: the wrapper handed to `executor::spawn`, with the
vmtoken captured at spawn time from the thread's `vm` handle (`token_of`
stands for the external `MemorySet::token`). -/
def spawn (thread : Thread) (token_of : Nat → Nat) : PageTableSwitchWrapper :=
  { vmtoken := token_of thread.vm, thread := thread.tid }

/-!  ## Reachable states

The operations of this file that mutate the global tables are the three
creation operations; a reachable state is any state produced by a sequence of
them from the empty boot state. -/

inductive Step : KernelState → KernelState → Prop
  | new_user (inp : LoaderInput) (exec_path : String) (args envs : List String)
      (tid : Nat) (s s1 : KernelState)
      (h : Thread.new_user inp exec_path args envs s = some (tid, s1)) : Step s s1
  | fork (k : Nat) (th : Thread) (tf : UserContext) (s : KernelState)
      (h : lookupTbl s.threads k = some th) : Step s (th.fork tf s).2
  | new_clone (k : Nat) (th : Thread) (ctx : UserContext) (stack_top tls cct : Nat)
      (s : KernelState) (h : lookupTbl s.threads k = some th) :
      Step s (th.new_clone ctx stack_top tls cct s).2

def Reachable (s : KernelState) : Prop := Relation.ReflTransGen Step initState s

/-- The table invariant: `THREADS` keys are unique, each stored thread's `tid`
is its key, thread-held process handles are valid, and every tid listed in a
process's `threads` belongs to a registered thread whose `proc` handle aliases
that process. -/
structure TableInv (s : KernelState) : Prop where
  nodup : (tblKeys s.threads).Nodup
  tidEq : ∀ p ∈ s.threads, p.2.tid = p.1
  procValid : ∀ p ∈ s.threads, p.2.proc < s.procs.length
  threadsConsistent : ∀ i, i < s.procs.length →
    ∀ tid ∈ (s.procs.getD i defaultProcess).threads,
      ∃ th, lookupTbl s.threads tid = some th ∧ th.proc = i

/-!  ## Store lemmas -/

theorem updateProc_length (procs : List Process) (i : Nat) (f : Process → Process) :
    (updateProc procs i f).length = procs.length := List.length_set _ _ _

theorem updateProc_getD_eq (procs : List Process) (i : Nat) (f : Process → Process)
    (h : i < procs.length) :
    (updateProc procs i f).getD i defaultProcess = f (procs.getD i defaultProcess) := by
  rw [updateProc, List.getD_eq_getElem?_getD, List.getElem?_set_self h]
  rfl

theorem updateProc_getD_ne (procs : List Process) (i j : Nat) (f : Process → Process)
    (h : j ≠ i) :
    (updateProc procs i f).getD j defaultProcess = procs.getD j defaultProcess := by
  rw [updateProc, List.getD_eq_getElem?_getD, List.getElem?_set_ne (Ne.symm h),
    List.getD_eq_getElem?_getD]

theorem getD_append_left {α : Type} (l : List α) (a : α) (i : Nat) (d : α)
    (h : i < l.length) : (l ++ [a]).getD i d = l.getD i d := by
  rw [List.getD_eq_getElem?_getD, List.getElem?_append_left h, List.getD_eq_getElem?_getD]

theorem getD_append_self {α : Type} (l : List α) (a : α) (d : α) :
    (l ++ [a]).getD l.length d = a := by
  rw [List.getD_eq_getElem?_getD]
  simp

/-- A process-store update that does not touch the `threads` field leaves every
record's `threads` projection unchanged. -/
theorem updateProc_threads_proj (procs : List Process) (i j : Nat) (f : Process → Process)
    (hf : ∀ p, (f p).threads = p.threads) (hj : j < procs.length) :
    ((updateProc procs i f).getD j defaultProcess).threads =
      (procs.getD j defaultProcess).threads := by
  by_cases hji : j = i
  · subst hji
    by_cases hi : j < procs.length
    · rw [updateProc_getD_eq _ _ _ hi, hf]
    · omega
  · rw [updateProc_getD_ne _ _ _ _ hji]

theorem lookupTbl_some_mem {α : Type} (tbl : List (Nat × α)) (k : Nat) (v : α)
    (h : lookupTbl tbl k = some v) : (k, v) ∈ tbl := by
  rw [lookupTbl] at h
  cases hf : tbl.find? (fun p => p.1 == k) with
  | none => rw [hf] at h; cases h
  | some p =>
    rw [hf] at h
    have hpk : p.1 = k := by simpa using List.find?_some hf
    have hpv : p.2 = v := by simpa using h
    have := List.mem_of_find?_eq_some hf
    rwa [show p = (k, v) from Prod.ext hpk hpv] at this

/-- Generic step shape: the new state's `THREADS` is the old one with a fresh
key inserted, and every process's `threads` list either kept an old entry or
gained the fresh tid pointing at the inserted thread's process. -/
theorem tableInv_of_insert (s s2 : KernelState) (inv : TableInv s) (v : Thread) (k : Nat)
    (hth : s2.threads = insertTbl k v s.threads)
    (hk : lookupTbl s.threads k = none)
    (hv : v.tid = k)
    (hvp : v.proc < s2.procs.length)
    (hlen : s.procs.length ≤ s2.procs.length)
    (hcons : ∀ i, i < s2.procs.length →
       ∀ tid ∈ (s2.procs.getD i defaultProcess).threads,
         (tid = k ∧ v.proc = i) ∨
           (tid ∈ (s.procs.getD i defaultProcess).threads ∧ i < s.procs.length)) :
    TableInv s2 := by
  refine ⟨?_, ?_, ?_, ?_⟩
  · rw [hth]
    exact tblKeys_nodup_insert k v s.threads inv.nodup
  · intro p hp
    rw [hth] at hp
    rcases mem_insertTbl k v s.threads p hp with he | hm
    · rw [he]
      exact hv
    · exact inv.tidEq p hm
  · intro p hp
    rw [hth] at hp
    rcases mem_insertTbl k v s.threads p hp with he | hm
    · rw [he]
      exact hvp
    · exact lt_of_lt_of_le (inv.procValid p hm) hlen
  · intro i hi tid htid
    rcases hcons i hi tid htid with ⟨hte, hpe⟩ | ⟨hmem, hilt⟩
    · refine ⟨v, ?_, hpe⟩
      rw [hth, hte]
      exact lookupTbl_insert_self k v s.threads
    · obtain ⟨th2, hl, hp2⟩ := inv.threadsConsistent i hilt tid hmem
      have hne : tid ≠ k := by
        intro he
        rw [he, hk] at hl
        cases hl
      refine ⟨th2, ?_, hp2⟩
      rw [hth, lookupTbl_insert_ne k tid v s.threads hne]
      exact hl

theorem new_clone_procs (th : Thread) (ctx : UserContext) (stack_top tls cct : Nat)
    (s : KernelState) :
    (th.new_clone ctx stack_top tls cct s).2.procs =
      updateProc s.procs th.proc
        (fun p => { p with threads := p.threads ++ [assignTid s.threads Pid.INIT] }) := rfl

theorem new_clone_preserves (s : KernelState) (inv : TableInv s) (th : Thread)
    (ctx : UserContext) (stack_top tls cct : Nat) (hproc : th.proc < s.procs.length) :
    TableInv (th.new_clone ctx stack_top tls cct s).2 := by
  have hk := (assignTid_spec s.threads Pid.INIT).1
  refine tableInv_of_insert s _ inv _ (assignTid s.threads Pid.INIT) rfl hk rfl ?_ ?_ ?_
  · rw [new_clone_procs, updateProc_length]
    exact hproc
  · rw [new_clone_procs, updateProc_length]
  · intro i hi tid htid
    rw [new_clone_procs, updateProc_length] at hi
    rw [new_clone_procs] at htid
    by_cases hieq : i = th.proc
    · subst hieq
      rw [updateProc_getD_eq _ _ _ hproc] at htid
      simp only [List.mem_append, List.mem_singleton] at htid
      rcases htid with hold | hnew
      · exact Or.inr ⟨hold, hi⟩
      · exact Or.inl ⟨hnew, rfl⟩
    · rw [updateProc_getD_ne _ _ _ _ hieq] at htid
      exact Or.inr ⟨htid, hi⟩

/-!  Named pieces of the `fork` and `new_user` post-states (definitionally
equal to what the operations build; the projection lemmas below are `rfl`). -/

def setPid (k : Nat) : Process → Process := fun p => { p with pid := k }

def addThreadTid (k : Nat) : Process → Process :=
  fun p => { p with threads := p.threads ++ [k] }

def addChild (c : Nat × Option Nat) : Process → Process :=
  fun p => { p with children := p.children ++ [c] }

def forkProc (th : Thread) (s : KernelState) : Process :=
  { vm := s.vmCount,
    files := (s.procs.getD th.proc defaultProcess).files,
    cwd := (s.procs.getD th.proc defaultProcess).cwd,
    exec_path := (s.procs.getD th.proc defaultProcess).exec_path,
    pid := 0,
    pgid := (s.procs.getD th.proc defaultProcess).pgid,
    parent := ((s.procs.getD th.proc defaultProcess).pid, some th.proc),
    children := [], threads := [], exit_code := 0, pending_sigset := 0 }

theorem fork_threads (th : Thread) (tf : UserContext) (s : KernelState) :
    (th.fork tf s).2.threads =
      insertTbl (assignTid s.threads Pid.INIT)
        { tid := assignTid s.threads Pid.INIT,
          inner := { context := some { tf with general := tf.general.set_syscall_ret 0 },
                     clear_child_tid := 0 },
          vm := s.vmCount, proc := s.procs.length, sig_mask := th.sig_mask }
        s.threads := rfl

theorem fork_procs (th : Thread) (tf : UserContext) (s : KernelState) :
    (th.fork tf s).2.procs =
      updateProc
        (updateProc
          (updateProc (s.procs ++ [forkProc th s]) s.procs.length
            (setPid (assignTid s.threads Pid.INIT)))
          s.procs.length (addThreadTid (assignTid s.threads Pid.INIT)))
        th.proc
        (addChild (assignTid s.threads Pid.INIT, some s.procs.length)) := rfl

theorem fork_preserves (s : KernelState) (inv : TableInv s) (th : Thread) (tf : UserContext)
    (hproc : th.proc < s.procs.length) : TableInv (th.fork tf s).2 := by
  have hk := (assignTid_spec s.threads Pid.INIT).1
  refine tableInv_of_insert s _ inv _ (assignTid s.threads Pid.INIT) (fork_threads th tf s)
    hk rfl ?_ ?_ ?_
  · rw [fork_procs, updateProc_length, updateProc_length, updateProc_length,
      List.length_append]
    simp
  · rw [fork_procs, updateProc_length, updateProc_length, updateProc_length,
      List.length_append]
    omega
  · intro i hi tid htid
    rw [fork_procs, updateProc_length, updateProc_length, updateProc_length,
      List.length_append] at hi
    rw [fork_procs] at htid
    simp only [List.length_singleton] at hi
    by_cases hieq : i = s.procs.length
    · subst hieq
      rw [updateProc_getD_ne _ _ _ _ (by omega : s.procs.length ≠ th.proc)] at htid
      rw [updateProc_getD_eq _ _ _
        (by rw [updateProc_length, List.length_append]; simp)] at htid
      rw [updateProc_getD_eq _ _ _ (by rw [List.length_append]; simp)] at htid
      rw [getD_append_self] at htid
      simp only [addThreadTid, setPid, forkProc, List.nil_append,
        List.mem_singleton] at htid
      exact Or.inl ⟨htid, rfl⟩
    · have hilt : i < s.procs.length := by omega
      rw [updateProc_threads_proj _ th.proc i
        (addChild (assignTid s.threads Pid.INIT, some s.procs.length)) (fun p => rfl)
        (by rw [updateProc_length, updateProc_length, List.length_append]; simp; omega)] at htid
      rw [updateProc_getD_ne _ _ _ _ hieq, updateProc_getD_ne _ _ _ _ hieq,
        getD_append_left _ _ _ _ hilt] at htid
      exact Or.inr ⟨htid, hilt⟩

def newUserCtx (entry_addr ustack_top : Nat) : UserContext :=
  { UserContext.default with
    general :=
      { (GeneralRegs.zero.set_ip entry_addr).set_sp ustack_top with rflags := 0x3202 } }

def newUserProc (exec_path : String) (s : KernelState) : Process :=
  { vm := s.vmCount,
    files := insertTbl 2 (ttyFd false true)
      (insertTbl 1 (ttyFd false true) (insertTbl 0 (ttyFd true false) [])),
    cwd := "/", exec_path := exec_path, pid := 0, pgid := 0, parent := (0, none),
    children := [], threads := [], exit_code := 0, pending_sigset := 0 }

def newUserThread (entry_addr ustack_top : Nat) (s : KernelState) : Thread :=
  { tid := 0,
    inner := { context := some (newUserCtx entry_addr ustack_top), clear_child_tid := 0 },
    vm := s.vmCount, proc := s.procs.length, sig_mask := 0 }

theorem new_user_ok_eq (inp : LoaderInput) (exec_path : String) (args envs : List String)
    (s : KernelState) (entry_addr ustack_top : Nat)
    (hvm : (Thread.new_user_vm inp args envs).1 = .ok (entry_addr, ustack_top)) :
    Thread.new_user inp exec_path args envs s =
      some (assignTid s.threads Pid.INIT,
        { threads := insertTbl (assignTid s.threads Pid.INIT)
            { newUserThread entry_addr ustack_top s with tid := assignTid s.threads Pid.INIT }
            s.threads,
          procs := updateProc (s.procs ++ [newUserProc exec_path s]) s.procs.length
            (setPid (assignTid s.threads Pid.INIT)),
          processTable := insertTbl (assignTid s.threads Pid.INIT) s.procs.length
            s.processTable,
          vmCount := s.vmCount + 1 }) := by
  rw [Thread.new_user, hvm]
  rfl

theorem new_user_none_eq (inp : LoaderInput) (exec_path : String) (args envs : List String)
    (s : KernelState) (e : String)
    (hvm : (Thread.new_user_vm inp args envs).1 = .error e) :
    Thread.new_user inp exec_path args envs s = none := by
  rw [Thread.new_user, hvm]

theorem new_user_preserves (inp : LoaderInput) (exec_path : String) (args envs : List String)
    (s : KernelState) (inv : TableInv s) (tid : Nat) (s3 : KernelState)
    (h : Thread.new_user inp exec_path args envs s = some (tid, s3)) : TableInv s3 := by
  cases hvm : (Thread.new_user_vm inp args envs).1 with
  | error e =>
    rw [new_user_none_eq inp exec_path args envs s e hvm] at h
    cases h
  | ok pr =>
    obtain ⟨entry_addr, ustack_top⟩ := pr
    rw [new_user_ok_eq inp exec_path args envs s entry_addr ustack_top hvm] at h
    have h2 := Option.some.inj h
    rw [Prod.mk.injEq] at h2
    obtain ⟨-, h4⟩ := h2
    subst h4
    have hk := (assignTid_spec s.threads Pid.INIT).1
    refine tableInv_of_insert s _ inv _ (assignTid s.threads Pid.INIT) rfl hk rfl ?_ ?_ ?_
    · simp only [updateProc_length, List.length_append, List.length_singleton]
      simp [newUserThread]
    · simp only [updateProc_length, List.length_append, List.length_singleton]
      omega
    · intro i hi tid2 htid
      simp only [updateProc_length, List.length_append, List.length_singleton] at hi
      by_cases hieq : i = s.procs.length
      · subst hieq
        rw [updateProc_getD_eq _ _ _ (by rw [List.length_append]; simp)] at htid
        rw [getD_append_self] at htid
        simp [setPid, newUserProc] at htid
      · have hilt : i < s.procs.length := by omega
        rw [updateProc_getD_ne _ _ _ _ hieq, getD_append_left _ _ _ _ hilt] at htid
        exact Or.inr ⟨htid, hilt⟩

theorem tableInv_init : TableInv initState := by
  refine ⟨List.nodup_nil, ?_, ?_, ?_⟩
  · intro p hp
    cases hp
  · intro p hp
    cases hp
  · intro i hi
    simp [initState] at hi

theorem tableInv_step (s s2 : KernelState) (inv : TableInv s) (hstep : Step s s2) :
    TableInv s2 := by
  cases hstep with
  | new_user inp exec_path args envs tid _ _ h =>
    exact new_user_preserves inp exec_path args envs s inv tid s2 h
  | fork k th tf _ h =>
    exact fork_preserves s inv th tf (inv.procValid (k, th) (lookupTbl_some_mem _ _ _ h))
  | new_clone k th ctx stack_top tls cct _ h =>
    exact new_clone_preserves s inv th ctx stack_top tls cct
      (inv.procValid (k, th) (lookupTbl_some_mem _ _ _ h))

theorem tableInv_reachable (s : KernelState) (h : Reachable s) : TableInv s := by
  induction h with
  | refl => exact tableInv_init
  | tail _ hstep ih => exact tableInv_step _ _ ih hstep

/-!  ## Concrete scenario inputs (used by counterexamples and witnesses) -/

/-- A statically linked executable image: reads parse fine, x86-64, no
interpreter. -/
def inpStatic : LoaderInput :=
  { exec_read_ok := true,
    exec_parse := .ok
      { type_ := .executable, machine := .x86_64, entry_point := 0x1000,
        ph_entry_size := 56, ph_count := 2, phdr_vaddr := some 0x40,
        interpreter := none },
    bias := 0,
    lookup_follow := fun _ _ => none,
    interp_read_ok := fun _ => false,
    interp_parse := fun _ => .error "unreadable",
    push_at := fun top => top - 64 }

/-- An image whose very first inode read fails. -/
def inpFail : LoaderInput := { inpStatic with exec_read_ok := false }

/-- Header of a PIE declaring `/lib/ld-musl-x86_64.so.1` as interpreter. -/
def hdrDyn : ElfHeader :=
  { type_ := .sharedObject, machine := .x86_64, entry_point := 0x1000,
    ph_entry_size := 56, ph_count := 3, phdr_vaddr := some 0x40,
    interpreter := some "/lib/ld-musl-x86_64.so.1" }

/-- Header of the dynamic linker itself. -/
def hdrInterp : ElfHeader :=
  { type_ := .sharedObject, machine := .x86_64, entry_point := 0x500,
    ph_entry_size := 56, ph_count := 2, phdr_vaddr := none, interpreter := none }

/-- A dynamically linked PIE: the interpreter path resolves to inode 42,
which reads and parses as `hdrInterp`. -/
def inpDyn : LoaderInput :=
  { exec_read_ok := true,
    exec_parse := .ok hdrDyn,
    bias := 0x40000000,
    lookup_follow := fun p _ => if p = "/lib/ld-musl-x86_64.so.1" then some 42 else none,
    interp_read_ok := fun i => i == 42,
    interp_parse := fun i => if i = 42 then .ok hdrInterp else .error "unreadable",
    push_at := fun top => top - 128 }

/-- An image that parses as a non-executable ELF type. -/
def hdrBadType : ElfHeader :=
  { type_ := .relocatable, machine := .x86_64, entry_point := 0,
    ph_entry_size := 56, ph_count := 0, phdr_vaddr := none, interpreter := none }

def inpBadType : LoaderInput := { inpStatic with exec_parse := .ok hdrBadType }

/-- An image built for a different machine. -/
def hdrBadArch : ElfHeader :=
  { type_ := .executable, machine := .aarch64, entry_point := 0x1000,
    ph_entry_size := 56, ph_count := 1, phdr_vaddr := none, interpreter := none }

def inpBadArch : LoaderInput := { inpStatic with exec_parse := .ok hdrBadArch }

def dummyThread : Thread :=
  { tid := 0, inner := { context := none, clear_child_tid := 0 },
    vm := 0, proc := 0, sig_mask := 0 }

/-- The state after booting the first user process: `new_user` from the empty
state with the static image. -/
def bootState : KernelState :=
  ((Thread.new_user inpStatic "/bin/hello" [] [] initState).getD (0, initState)).2

theorem bootState_step :
    Thread.new_user inpStatic "/bin/hello" [] [] initState = some (1, bootState) := by
  rfl

theorem bootState_reachable : Reachable bootState :=
  Relation.ReflTransGen.tail Relation.ReflTransGen.refl
    (Step.new_user inpStatic "/bin/hello" [] [] 1 initState bootState bootState_step)

def bootThread : Thread := (lookupTbl bootState.threads 1).getD dummyThread

/-- A concrete parent trap frame. -/
def tf0 : UserContext :=
  { trap_num := 0x100, error_code := 0,
    general := { GeneralRegs.zero with rax := 57, rsp := 0x7ffff000, rip := 0x2000 } }

theorem new_clone_threads (th : Thread) (ctx : UserContext) (stack_top tls cct : Nat)
    (s : KernelState) :
    (th.new_clone ctx stack_top tls cct s).2.threads =
      insertTbl (assignTid s.threads Pid.INIT)
        { tid := assignTid s.threads Pid.INIT,
          inner := { context := some { ctx with general :=
                       ((ctx.general.set_syscall_ret 0).set_sp stack_top).set_tls tls },
                     clear_child_tid := cct },
          vm := th.vm, proc := th.proc, sig_mask := th.sig_mask } s.threads := rfl

/-!  ## Claims -/

/-- C1: `add_to_table` assigns the thread the smallest integer tid that is
`≥ Pid::INIT` and not currently a key of `THREADS`, sets the thread's `tid`
field to that value and inserts the thread under that key; and for every
reachable table state the keys of `THREADS` are unique and each stored
thread's `tid` equals its key. -/
theorem add_to_table_least_free_and_reachable_inv :
    (∀ (th : Thread) (tbl : List (Nat × Thread)),
      Pid.INIT ≤ (th.add_to_table tbl).1.tid ∧
      lookupTbl tbl (th.add_to_table tbl).1.tid = none ∧
      (∀ j, Pid.INIT ≤ j → j < (th.add_to_table tbl).1.tid → (lookupTbl tbl j).isSome) ∧
      (th.add_to_table tbl).1 = { th with tid := (th.add_to_table tbl).1.tid } ∧
      (th.add_to_table tbl).2 =
        insertTbl (th.add_to_table tbl).1.tid (th.add_to_table tbl).1 tbl ∧
      lookupTbl (th.add_to_table tbl).2 (th.add_to_table tbl).1.tid =
        some (th.add_to_table tbl).1) ∧
    (∀ s : KernelState, Reachable s →
      (tblKeys s.threads).Nodup ∧ ∀ p ∈ s.threads, p.2.tid = p.1) := by
  constructor
  · intro th tbl
    obtain ⟨h1, h2, h3⟩ := assignTid_spec tbl Pid.INIT
    exact ⟨h2, h1, h3, rfl, rfl, lookupTbl_insert_self _ _ _⟩
  · intro s hs
    exact ⟨(tableInv_reachable s hs).nodup, (tableInv_reachable s hs).tidEq⟩

/-- C1 witness: the invariant at the concrete reachable boot state, and the
freshness of the assigned tid on the empty table. -/
theorem add_to_table_least_free_witness :
    (tblKeys bootState.threads).Nodup ∧
    lookupTbl ([] : List (Nat × Thread)) ((dummyThread.add_to_table []).1.tid) = none :=
  ⟨(add_to_table_least_free_and_reachable_inv.2 bootState bootState_reachable).1,
   (add_to_table_least_free_and_reachable_inv.1 dummyThread []).2.1⟩

/-- C2 counterexample: from the empty state, `new_user` creates thread 1 whose
`proc` handle is process 0, yet process 0's `threads` list stays empty —
`new_user` never pushes the new tid, so "after registration `t.tid ∈
t.proc.threads`" fails for `new_user`. -/
theorem new_user_tid_not_in_proc_threads :
    Thread.new_user inpStatic "/bin/hello" [] [] initState = some (1, bootState) ∧
    (lookupTbl bootState.threads 1).map Thread.proc = some 0 ∧
    (bootState.procs.getD 0 defaultProcess).threads = [] ∧
    (1 : Nat) ∉ (bootState.procs.getD 0 defaultProcess).threads := by
  exact ⟨bootState_step, rfl, rfl, by decide⟩

/-- C2 (amended): threads created by `fork` and `new_clone` are registered in
their process's `threads` list with an aliasing `proc` handle, and in every
reachable state each tid in a process's `threads` list names a registered
thread whose `proc` handle aliases that process; a thread created by
`new_user`, however, is not added to its process's `threads` list. -/
theorem creation_registers_thread_in_proc :
    (∀ (s : KernelState) (th : Thread) (tf : UserContext),
      (lookupTbl (th.fork tf s).2.threads (th.fork tf s).1).map Thread.proc =
        some s.procs.length ∧
      (th.fork tf s).1 ∈
        ((th.fork tf s).2.procs.getD s.procs.length defaultProcess).threads) ∧
    (∀ (s : KernelState) (th : Thread) (ctx : UserContext) (stack_top tls cct : Nat),
      th.proc < s.procs.length →
      (lookupTbl (th.new_clone ctx stack_top tls cct s).2.threads
          (th.new_clone ctx stack_top tls cct s).1).map Thread.proc = some th.proc ∧
      (th.new_clone ctx stack_top tls cct s).1 ∈
        ((th.new_clone ctx stack_top tls cct s).2.procs.getD th.proc defaultProcess).threads) ∧
    (∀ s : KernelState, Reachable s → ∀ i, i < s.procs.length →
      ∀ tid ∈ (s.procs.getD i defaultProcess).threads,
        ∃ t2, lookupTbl s.threads tid = some t2 ∧ t2.proc = i) ∧
    (∀ (inp : LoaderInput) (exec_path : String) (args envs : List String)
       (s s3 : KernelState) (tid : Nat), TableInv s →
      Thread.new_user inp exec_path args envs s = some (tid, s3) →
      ∀ th2, lookupTbl s3.threads tid = some th2 →
        tid ∉ (s3.procs.getD th2.proc defaultProcess).threads) := by
  refine ⟨?_, ?_, ?_, ?_⟩
  · intro s th tf
    constructor
    · rw [fork_threads, show (th.fork tf s).1 = assignTid s.threads Pid.INIT from rfl,
        lookupTbl_insert_self]
      rfl
    · rw [fork_procs, show (th.fork tf s).1 = assignTid s.threads Pid.INIT from rfl]
      rw [updateProc_threads_proj _ th.proc s.procs.length
        (addChild (assignTid s.threads Pid.INIT, some s.procs.length)) (fun p => rfl)
        (by rw [updateProc_length, updateProc_length, List.length_append]; simp)]
      rw [updateProc_getD_eq _ _ _ (by rw [updateProc_length, List.length_append]; simp)]
      rw [updateProc_getD_eq _ _ _ (by rw [List.length_append]; simp)]
      rw [getD_append_self]
      simp [addThreadTid, setPid, forkProc]
  · intro s th ctx stack_top tls cct hproc
    constructor
    · rw [new_clone_threads,
        show (th.new_clone ctx stack_top tls cct s).1 = assignTid s.threads Pid.INIT from rfl,
        lookupTbl_insert_self]
      rfl
    · rw [new_clone_procs,
        show (th.new_clone ctx stack_top tls cct s).1 = assignTid s.threads Pid.INIT from rfl]
      rw [updateProc_getD_eq _ _ _ hproc]
      simp
  · intro s hs i hi tid htid
    exact (tableInv_reachable s hs).threadsConsistent i hi tid htid
  · intro inp exec_path args envs s s3 tid inv h th2 hth2
    cases hvm : (Thread.new_user_vm inp args envs).1 with
    | error e =>
      rw [new_user_none_eq inp exec_path args envs s e hvm] at h
      cases h
    | ok pr =>
      obtain ⟨entry_addr, ustack_top⟩ := pr
      rw [new_user_ok_eq inp exec_path args envs s entry_addr ustack_top hvm] at h
      have h2 := Option.some.inj h
      rw [Prod.mk.injEq] at h2
      obtain ⟨h3, h4⟩ := h2
      subst h4
      subst h3
      have hfresh := (assignTid_spec s.threads Pid.INIT).1
      by_cases hpe : th2.proc = s.procs.length
      · rw [hpe, updateProc_getD_eq _ _ _ (by rw [List.length_append]; simp),
          getD_append_self]
        simp [setPid, newUserProc]
      · rw [updateProc_getD_ne _ _ _ _ hpe]
        by_cases hlt : th2.proc < s.procs.length
        · rw [getD_append_left _ _ _ _ hlt]
          -- an old process list cannot contain the fresh tid
          intro hmem
          obtain ⟨t2, hl, -⟩ := inv.threadsConsistent th2.proc hlt _ hmem
          rw [hfresh] at hl
          cases hl
        · -- out-of-range handle: the default record has an empty list
          have hnone : (s.procs ++ [newUserProc exec_path s]).getD th2.proc defaultProcess =
              defaultProcess := by
            rw [List.getD_eq_getElem?_getD,
              List.getElem?_eq_none (by simp [List.length_append]; omega)]
            rfl
          rw [hnone]
          simp [defaultProcess]

/-- C2 witness: a concrete `new_clone` on the boot state registers the fresh
tid in the shared process's `threads` list, and concretely the `new_user`-made
thread 1 is absent from its process's list. -/
theorem creation_registers_thread_in_proc_witness :
    ((lookupTbl (bootThread.new_clone tf0 0x7000 0x100 0 bootState).2.threads
        (bootThread.new_clone tf0 0x7000 0x100 0 bootState).1).map Thread.proc =
      some bootThread.proc ∧
     (bootThread.new_clone tf0 0x7000 0x100 0 bootState).1 ∈
       ((bootThread.new_clone tf0 0x7000 0x100 0 bootState).2.procs.getD bootThread.proc
         defaultProcess).threads) ∧
    (1 : Nat) ∉ (bootState.procs.getD bootThread.proc defaultProcess).threads :=
  ⟨creation_registers_thread_in_proc.2.1 bootState bootThread tf0 0x7000 0x100 0 (by decide),
   creation_registers_thread_in_proc.2.2.2 inpStatic "/bin/hello" [] [] initState bootState 1
     tableInv_init bootState_step bootThread rfl⟩

/-- C3: `fork(tf)` returns a child whose saved user context equals the
parent's trap frame `tf` except that the syscall-return register (`rax`) is
zero, and the parent thread's registered record — hence its saved state — is
untouched; the embedding's `fork` consumes `tf` by value, reflecting the
read-only `&UserContext` borrow, so the parent's trap frame itself is
unchanged. -/
theorem fork_return_contract (s : KernelState) (ptid : Nat) (th : Thread) (tf : UserContext)
    (hp : lookupTbl s.threads ptid = some th) :
    ((lookupTbl (th.fork tf s).2.threads (th.fork tf s).1).map
        (fun t => t.inner.context)) =
      some (some { tf with general := { tf.general with rax := 0 } }) ∧
    lookupTbl (th.fork tf s).2.threads ptid = some th := by
  constructor
  · rw [fork_threads, show (th.fork tf s).1 = assignTid s.threads Pid.INIT from rfl,
      lookupTbl_insert_self]
    rfl
  · have hfresh := (assignTid_spec s.threads Pid.INIT).1
    have hne : ptid ≠ assignTid s.threads Pid.INIT := by
      intro he
      rw [he, hfresh] at hp
      cases hp
    rw [fork_threads, lookupTbl_insert_ne _ _ _ _ hne]
    exact hp

/-- C3 witness: the contract at the concrete boot thread and trap frame. -/
theorem fork_return_contract_witness :
    ((lookupTbl (bootThread.fork tf0 bootState).2.threads
        (bootThread.fork tf0 bootState).1).map (fun t => t.inner.context)) =
      some (some { tf0 with general := { tf0.general with rax := 0 } }) ∧
    lookupTbl (bootThread.fork tf0 bootState).2.threads 1 = some bootThread :=
  fork_return_contract bootState 1 bootThread tf0 rfl

/-- C4: the thread returned by `new_clone(ctx, stack_top, tls,
clear_child_tid)` shares the caller's `vm` handle, `proc` handle and
`sig_mask`, and its saved context equals `ctx` except that the stack pointer
is `stack_top`, the TLS register is `tls` and the syscall-return register is
zero; its `clear_child_tid` is the given value. -/
theorem new_clone_shares_and_overrides (s : KernelState) (th : Thread) (ctx : UserContext)
    (stack_top tls cct : Nat) :
    (lookupTbl (th.new_clone ctx stack_top tls cct s).2.threads
        (th.new_clone ctx stack_top tls cct s).1).map
      (fun t => (t.vm, t.proc, t.sig_mask, t.inner.context, t.inner.clear_child_tid)) =
    some (th.vm, th.proc, th.sig_mask,
      some { ctx with general :=
        { ctx.general with rax := 0, rsp := stack_top, fsbase := tls } }, cct) := by
  rw [new_clone_threads,
    show (th.new_clone ctx stack_top tls cct s).1 = assignTid s.threads Pid.INIT from rfl,
    lookupTbl_insert_self]
  rfl

/-- C10: `begin_running` panics (no result) when the saved context is absent;
when it is present it removes and returns it leaving the slot empty, and
`end_running` restores it, so the pair is a roundtrip on the context slot. -/
theorem begin_end_running_roundtrip :
    (∀ inner : ThreadInner, inner.context = none → Thread.begin_running inner = none) ∧
    (∀ (inner : ThreadInner) (cx : UserContext), inner.context = some cx →
      Thread.begin_running inner = some (cx, { inner with context := none }) ∧
      Thread.end_running { inner with context := none } cx = inner) ∧
    (∀ (inner next : ThreadInner) (cx : UserContext),
      Thread.begin_running inner = some (cx, next) →
      next.context = none ∧ Thread.end_running next cx = inner) := by
  refine ⟨?_, ?_, ?_⟩
  · intro inner h
    obtain ⟨octx, cct⟩ := inner
    simp only at h
    subst h
    rfl
  · intro inner cx h
    obtain ⟨octx, cct⟩ := inner
    simp only at h
    subst h
    exact ⟨rfl, rfl⟩
  · intro inner next cx h
    obtain ⟨octx, cct⟩ := inner
    cases octx with
    | none => cases h
    | some c =>
      simp only [Thread.begin_running, Option.some.injEq, Prod.mk.injEq] at h
      obtain ⟨hc, hn⟩ := h
      subst hc
      subst hn
      exact ⟨rfl, rfl⟩

/-- C10 witness: the roundtrip on a concrete inner state. -/
theorem begin_end_running_roundtrip_witness :
    Thread.begin_running { context := some tf0, clear_child_tid := 7 } =
      some (tf0, { context := none, clear_child_tid := 7 }) ∧
    Thread.end_running { context := none, clear_child_tid := 7 } tf0 =
      { context := some tf0, clear_child_tid := 7 } :=
  begin_end_running_roundtrip.2.1 { context := some tf0, clear_child_tid := 7 } tf0 rfl

/-- C5: every poll of a spawned task first records the thread's handle in
`PROCESSORS[cpu_id]` and installs the vmtoken captured at spawn time as the
per-CPU page table, then polls the inner future exactly once — the wrapper's
result is that single application of `inner` to the activated entry state —
and sets `PROCESSORS[cpu_id]` back to `None` before returning. -/
theorem poll_wrapper_activation (th : Thread) (token_of : Nat → Nat) (cpu_id : Nat)
    (inner : CpuState → Bool × CpuState) (st : CpuState) :
    (spawn th token_of).vmtoken = token_of th.vm ∧
    (pollEntryState (spawn th token_of) cpu_id st).PROCESSORS cpu_id = some th.tid ∧
    (pollEntryState (spawn th token_of) cpu_id st).page_table cpu_id = token_of th.vm ∧
    (spawn th token_of).poll cpu_id inner st =
      ((inner (pollEntryState (spawn th token_of) cpu_id st)).1,
       setProcessor (inner (pollEntryState (spawn th token_of) cpu_id st)).2 cpu_id none) ∧
    ((spawn th token_of).poll cpu_id inner st).2.PROCESSORS cpu_id = none := by
  refine ⟨rfl, ?_, ?_, rfl, ?_⟩
  · simp [pollEntryState, set_page_table, setProcessor, spawn]
  · simp [pollEntryState, set_page_table, spawn]
  · simp [PageTableSwitchWrapper.poll, setProcessor]

theorem countRun_handleTrap (t : TrapResult) : countRun (handleTrap t).1 = 0 := by
  unfold handleTrap countRun
  split_ifs <;> simp [isRunEv, List.countP_append, List.countP_cons]

theorem countRun_iterEvents (t : TrapResult) : countRun (iterEvents t).1 = 1 := by
  have h := countRun_handleTrap t
  rw [countRun] at h
  simp [iterEvents, countRun, List.countP_append, List.countP_cons, isRunEv, h]

/-- C6: once `handle_syscall` reports `exit = true` the run-loop restores the
context (`end_running` appears in the iteration's events) and terminates with
no further `cx.run` (exactly one run in the whole remaining trace); for every
other trap outcome the loop continues into the rest of the schedule.  Exit is
reported exactly for the syscall vector 0x100 with `handle_syscall` true. -/
theorem run_loop_exit_terminal :
    (∀ (t : TrapResult) (rest : List TrapResult), (iterEvents t).2 = true →
      runLoop (t :: rest) = (iterEvents t).1 ∧
      countRun (runLoop (t :: rest)) = 1 ∧
      TrapEvent.endRunning ∈ runLoop (t :: rest)) ∧
    (∀ (t : TrapResult) (rest : List TrapResult), (iterEvents t).2 = false →
      runLoop (t :: rest) = (iterEvents t).1 ++ runLoop rest) ∧
    (∀ t : TrapResult,
      (iterEvents t).2 = true ↔ (t.trap_num = 0x100 ∧ t.syscall_exit = true)) ∧
    (∀ (pre : List TrapResult) (t : TrapResult) (rest : List TrapResult),
      (∀ u ∈ pre, (iterEvents u).2 = false) → (iterEvents t).2 = true →
      countRun (runLoop (pre ++ t :: rest)) = pre.length + 1) := by
  have hone : ∀ t : TrapResult, countRun (iterEvents t).1 = 1 := countRun_iterEvents
  refine ⟨?_, ?_, ?_, ?_⟩
  · intro t rest h
    refine ⟨by simp [runLoop, h], ?_, ?_⟩
    · simp [runLoop, h, hone t]
    · rw [show runLoop (t :: rest) = (iterEvents t).1 by simp [runLoop, h]]
      simp [iterEvents]
  · intro t rest h
    simp [runLoop, h]
  · intro t
    show (handleTrap t).2 = true ↔ _
    unfold handleTrap
    split_ifs with h1 h2 h3 <;> simp [h1]
  · intro pre
    induction pre with
    | nil =>
      intro t rest _ h
      simp only [List.nil_append, List.length_nil]
      rw [show runLoop (t :: rest) = (iterEvents t).1 by simp [runLoop, h]]
      exact hone t
    | cons u pre ih =>
      intro t rest hpre h
      have hu : (iterEvents u).2 = false := hpre u (List.mem_cons_self u pre)
      have hrest : ∀ v ∈ pre, (iterEvents v).2 = false :=
        fun v hv => hpre v (List.mem_cons_of_mem u hv)
      have hloop : runLoop ((u :: pre) ++ t :: rest) =
          (iterEvents u).1 ++ runLoop (pre ++ t :: rest) := by
        simp [runLoop, hu]
      rw [hloop]
      have h1 := countRun_iterEvents u
      have h2 := ih t rest hrest h
      simp only [countRun, List.countP_append] at h1 h2 ⊢
      rw [h1, h2]
      simp [List.length_cons]
      omega

def trapExit : TrapResult := { trap_num := 0x100, page_fault_addr := 0, syscall_exit := true }

def trapTimer : TrapResult := { trap_num := 0x20, page_fault_addr := 0, syscall_exit := false }

/-- C6 witness: concrete schedules — an exiting syscall stops the trace, and
a timer interrupt before it yields exactly two runs. -/
theorem run_loop_exit_terminal_witness :
    runLoop [trapExit, trapTimer] = (iterEvents trapExit).1 ∧
    countRun (runLoop ([trapTimer] ++ trapExit :: [trapTimer])) = 2 :=
  ⟨(run_loop_exit_terminal.1 trapExit [trapTimer] (by decide)).1,
   run_loop_exit_terminal.2.2.2 [trapTimer] trapExit [trapTimer] (by decide) (by decide)⟩

/-- C7: the loader fails with `"failed to read from INode"` whenever reading
the 0x3C0-byte prefix fails, with an error whenever the parsed ELF type is
neither `Executable` nor `SharedObject`, and with `"invalid ELF arch"`
whenever the machine is not the build target's (x86-64); in each case the
result is an `Err` carrying no `(entry, stack_top)` pair. -/
theorem new_user_vm_rejects (inp : LoaderInput) (args envs : List String) :
    (inp.exec_read_ok = false →
      (Thread.new_user_vm inp args envs).1 = .error "failed to read from INode") ∧
    (∀ elf : ElfHeader, inp.exec_read_ok = true → inp.exec_parse = .ok elf →
      ¬(elf.type_ = .executable ∨ elf.type_ = .sharedObject) →
      (Thread.new_user_vm inp args envs).1 =
        .error "ELF is not executable or shared object") ∧
    (∀ elf : ElfHeader, inp.exec_read_ok = true → inp.exec_parse = .ok elf →
      (elf.type_ = .executable ∨ elf.type_ = .sharedObject) →
      elf.machine ≠ .x86_64 →
      (Thread.new_user_vm inp args envs).1 = .error "invalid ELF arch") := by
  refine ⟨?_, ?_, ?_⟩
  · intro h
    simp [Thread.new_user_vm, h]
  · intro elf h1 h2 h3
    simp [Thread.new_user_vm, h1, h2, h3]
  · intro elf h1 h2 h3 h4
    rcases h3 with ht | ht <;> simp [Thread.new_user_vm, h1, h2, ht, h4]

/-- C7 witness: the three rejections on concrete images. -/
theorem new_user_vm_rejects_witness :
    (Thread.new_user_vm inpFail [] []).1 = .error "failed to read from INode" ∧
    (Thread.new_user_vm inpBadType [] []).1 =
      .error "ELF is not executable or shared object" ∧
    (Thread.new_user_vm inpBadArch [] []).1 = .error "invalid ELF arch" :=
  ⟨(new_user_vm_rejects inpFail [] []).1 rfl,
   (new_user_vm_rejects inpBadType [] []).2.1 hdrBadType rfl rfl (by decide),
   (new_user_vm_rejects inpBadArch [] []).2.2 hdrBadArch rfl rfl (Or.inl rfl) (by decide)⟩

/-- C8 counterexample: on an image whose inode read fails, the loader reports
an error, but `new_user` panics (`unwrap`, modelled `none`) instead of
returning it — no error is surfaced to `new_user`'s caller. -/
theorem new_user_aborts_on_loader_failure :
    (Thread.new_user_vm inpFail ([] : List String) []).1 =
      .error "failed to read from INode" ∧
    Thread.new_user inpFail "/bin/hello" [] [] initState = none :=
  ⟨rfl, rfl⟩

/-- C8 (amended): `new_user` does not surface loader errors to its caller — it
unwraps and panics exactly when `new_user_vm` fails; surfacing an image-load
error to userland can only happen through callers invoking `new_user_vm`
directly (the execve path), not through `new_user`. -/
theorem new_user_panics_iff_loader_fails (inp : LoaderInput) (exec_path : String)
    (args envs : List String) (s : KernelState) :
    Thread.new_user inp exec_path args envs s = none ↔
      ∃ e, (Thread.new_user_vm inp args envs).1 = .error e := by
  cases hvm : (Thread.new_user_vm inp args envs).1 with
  | error e =>
    rw [new_user_none_eq inp exec_path args envs s e hvm]
    simp
  | ok pr =>
    obtain ⟨a, b⟩ := pr
    rw [new_user_ok_eq inp exec_path args envs s a b hvm]
    simp

/-- C9: when the ELF declares an interpreter, the loader resolves the path
through the filesystem at depth `FOLLOW_MAX_DEPTH`, appends the interpreter to
the address space at the bias, sets auxv `AT_ENTRY` to the executable's own
entry point and `AT_BASE` to the bias, and returns an effective entry equal to
the interpreter's entry point plus the bias. -/
theorem new_user_vm_interpreter (inp : LoaderInput) (args envs : List String)
    (elf elf_i : ElfHeader) (path : String) (inode : Nat)
    (hread : inp.exec_read_ok = true)
    (hparse : inp.exec_parse = .ok elf)
    (htype : elf.type_ = .executable ∨ elf.type_ = .sharedObject)
    (hmach : elf.machine = .x86_64)
    (hinterp : elf.interpreter = some path)
    (hlook : inp.lookup_follow path FOLLOW_MAX_DEPTH = some inode)
    (hiread : inp.interp_read_ok inode = true)
    (hiparse : inp.interp_parse inode = .ok elf_i) :
    (Thread.new_user_vm inp args envs).1 =
      .ok (elf_i.entry_point + inp.bias,
           inp.push_at (USER_STACK_OFFSET + USER_STACK_SIZE)) ∧
    VMOp.appendInterpreter inode inp.bias ∈ (Thread.new_user_vm inp args envs).2 ∧
    (∃ auxv top, VMOp.pushInitInfo args envs auxv top ∈ (Thread.new_user_vm inp args envs).2 ∧
      lookupTbl auxv AT_ENTRY = some elf.entry_point ∧
      lookupTbl auxv AT_BASE = some inp.bias ∧
      top = inp.push_at (USER_STACK_OFFSET + USER_STACK_SIZE)) := by
  have heval : Thread.new_user_vm inp args envs =
      (.ok (elf_i.entry_point + inp.bias,
            inp.push_at (USER_STACK_OFFSET + USER_STACK_SIZE)),
       [VMOp.clear, VMOp.mapExec inp.bias, VMOp.appendInterpreter inode inp.bias,
        VMOp.pushDelay USER_STACK_OFFSET
          (USER_STACK_OFFSET + USER_STACK_SIZE - PAGE_SIZE * 4) "user_stack_delay",
        VMOp.pushByFrame (USER_STACK_OFFSET + USER_STACK_SIZE - PAGE_SIZE * 4)
          (USER_STACK_OFFSET + USER_STACK_SIZE) "user_stack",
        VMOp.pushInitInfo args envs
          (insertTbl AT_BASE inp.bias (insertTbl AT_ENTRY elf.entry_point
            (insertTbl AT_PAGESZ PAGE_SIZE (insertTbl AT_PHNUM elf.ph_count
              (insertTbl AT_PHENT elf.ph_entry_size
                (match elf.phdr_vaddr with
                 | some v => insertTbl AT_PHDR v []
                 | none => []))))))
          (inp.push_at (USER_STACK_OFFSET + USER_STACK_SIZE))]) := by
    rcases htype with ht | ht <;>
      simp [Thread.new_user_vm, hread, hparse, ht, hmach, hinterp, hlook, hiread, hiparse]
  refine ⟨by rw [heval], by rw [heval]; simp, ?_⟩
  refine ⟨insertTbl AT_BASE inp.bias (insertTbl AT_ENTRY elf.entry_point
      (insertTbl AT_PAGESZ PAGE_SIZE (insertTbl AT_PHNUM elf.ph_count
        (insertTbl AT_PHENT elf.ph_entry_size
          (match elf.phdr_vaddr with
           | some v => insertTbl AT_PHDR v []
           | none => []))))),
    inp.push_at (USER_STACK_OFFSET + USER_STACK_SIZE), by rw [heval]; simp, ?_, ?_, rfl⟩
  · rw [lookupTbl_insert_ne _ _ _ _ (by decide), lookupTbl_insert_self]
  · rw [lookupTbl_insert_self]

/-- C9 witness: the dynamic-link scenario on the concrete PIE image. -/
theorem new_user_vm_interpreter_witness :
    (Thread.new_user_vm inpDyn [] []).1 =
      .ok (hdrInterp.entry_point + inpDyn.bias,
           inpDyn.push_at (USER_STACK_OFFSET + USER_STACK_SIZE)) ∧
    VMOp.appendInterpreter 42 inpDyn.bias ∈ (Thread.new_user_vm inpDyn [] []).2 :=
  ⟨(new_user_vm_interpreter inpDyn [] [] hdrDyn hdrInterp "/lib/ld-musl-x86_64.so.1" 42
      rfl rfl (Or.inr rfl) rfl rfl rfl rfl rfl).1,
   (new_user_vm_interpreter inpDyn [] [] hdrDyn hdrInterp "/lib/ld-musl-x86_64.so.1" 42
      rfl rfl (Or.inr rfl) rfl rfl rfl rfl rfl).2.1⟩

end RCore
